import Mathlib

/-!
Shallow embedding of the Risk Propagation & Scenario Engine of
`modules/risk_engine.py` (class `RiskEngine`).

The engine operates on a property graph held in a Memgraph store with node
labels `Company`, `Blockholder`, `RiskFactor` and edge types `OWNS`,
`EXPOSED_TO`.  We embed the graph as explicit lists of nodes and edges whose
optional properties mirror the store's property maps (a missing property is
`none`; Cypher `coalesce(x, 0)` becomes `Option.getD 0`).  Node ids are unique
in the store (the spec's data model: "id (unique, stable)"); lookups by id are
embedded with `List.find?`.  Numeric properties are embedded as `ℚ`.

Each Cypher statement of the source becomes one Lean function on `Graph`;
statements that SET properties become `List.map` over the nodes/edges, reading
the pre-statement graph (Cypher reads within one statement observe the state
at statement start).
-/

namespace RiskDash

inductive NodeLabel
  | company
  | blockholder
  | riskFactor
deriving DecidableEq, Repr

inductive EdgeType
  | owns
  | exposedTo
deriving DecidableEq, Repr

/-- A graph node with its property map.  `id`/`name` mirror the `id`/`name`
properties; the remaining fields are the properties the engine reads/writes. -/
structure Node where
  id : String
  name : String
  label : NodeLabel
  marketCap : Option ℚ
  directRisk : Option ℚ
  totalRisk : Option ℚ
  dollarizedRisk : Option ℚ
  indirectRisk : Option ℚ
  role : Option String
  sector : Option String
  location : Option String
deriving DecidableEq, Repr

/-- A node with the given id, name and label and an empty property map. -/
def mkNode (i nm : String) (l : NodeLabel) : Node :=
  { id := i, name := nm, label := l, marketCap := none, directRisk := none,
    totalRisk := none, dollarizedRisk := none, indirectRisk := none,
    role := none, sector := none, location := none }

/-- A typed edge; `percent`/`year` are OWNS properties, `weight` is the
EXPOSED_TO property. -/
structure Edge where
  src : String
  dst : String
  etype : EdgeType
  percent : Option ℚ
  weight : Option ℚ
  year : Option Int
deriving DecidableEq, Repr

def mkOwns (s d : String) (p : ℚ) : Edge :=
  { src := s, dst := d, etype := .owns, percent := some p, weight := none, year := none }

def mkExposed (s d : String) (w : ℚ) : Edge :=
  { src := s, dst := d, etype := .exposedTo, percent := none, weight := some w, year := none }

structure Graph where
  nodes : List Node
  edges : List Edge
deriving DecidableEq, Repr

def Graph.findNode (g : Graph) (i : String) : Option Node :=
  g.nodes.find? (fun n => n.id == i)

/-- Does the id resolve to a node carrying the given label?  Embeds a Cypher
pattern `(x:Label {id: i})` (node ids are unique in the store). -/
def Graph.nodeHasLabel (g : Graph) (i : String) (l : NodeLabel) : Bool :=
  match g.findNode i with
  | some n => n.label == l
  | none => false

/-- Does some node carry the given label and id?  Embeds `MATCH (x:Label {id: i})`
existence. -/
def Graph.hasNode (g : Graph) (l : NodeLabel) (i : String) : Bool :=
  g.nodes.any (fun n => n.label == l && n.id == i)

def Graph.mapNodes (g : Graph) (f : Node → Node) : Graph :=
  { g with nodes := g.nodes.map f }

/-- Well-formedness of the store: node ids are unique. -/
def Graph.NodupIds (g : Graph) : Prop :=
  (g.nodes.map (fun n => n.id)).Nodup

instance (g : Graph) : Decidable g.NodupIds := by
  unfold Graph.NodupIds
  infer_instance

def Graph.totalRiskOf (g : Graph) (i : String) : Option ℚ :=
  (g.findNode i).bind Node.totalRisk

def Graph.directRiskOf (g : Graph) (i : String) : Option ℚ :=
  (g.findNode i).bind Node.directRisk

def Graph.dollarizedRiskOf (g : Graph) (i : String) : Option ℚ :=
  (g.findNode i).bind Node.dollarizedRisk

def Graph.indirectRiskOf (g : Graph) (i : String) : Option ℚ :=
  (g.findNode i).bind Node.indirectRisk

def Graph.roleOf (g : Graph) (i : String) : Option String :=
  (g.findNode i).bind Node.role

/-! ### compute_total_risk (risk_engine.py lines 37-80) -/

/-- First statement of `compute_total_risk`: for every Company/Blockholder set
`total_risk = 0.0`, `direct_risk = coalesce(direct_risk, 0.0)` and
`REMOVE n.indirect_risk`. -/
def resetNode (n : Node) : Node :=
  if n.label == .company || n.label == .blockholder then
    { n with totalRisk := some 0, directRisk := some (n.directRisk.getD 0),
             indirectRisk := none }
  else n

def resetStep (g : Graph) : Graph := g.mapNodes resetNode

/-- The weights summed by the seeding statement
`MATCH (c:Company)-[e:EXPOSED_TO]->(r:RiskFactor) WITH c, sum(toFloat(e.weight)) ...`
for the company with id `cid`.  (Cypher `sum` skips a NULL weight, which sums
the same as contributing 0.) -/
def exposureWeights (g : Graph) (cid : String) : List ℚ :=
  g.edges.filterMap (fun e =>
    if e.etype == .exposedTo && e.src == cid && g.nodeHasLabel e.dst .riskFactor
    then some (e.weight.getD 0) else none)

/-- Seeding statement: matched companies (those with at least one EXPOSED_TO
edge to a RiskFactor) get `direct_risk = total_risk = Σ weight`; companies with
no such edge are not matched and keep their reset values. -/
def seedNode (g : Graph) (n : Node) : Node :=
  if n.label == .company && !(exposureWeights g n.id).isEmpty then
    { n with directRisk := some (exposureWeights g n.id).sum,
             totalRisk := some (exposureWeights g n.id).sum }
  else n

def seedStep (g : Graph) : Graph := g.mapNodes (seedNode g)

/-- Third statement: Blockholders whose `total_risk` is still NULL get 0. -/
def bhInitNode (n : Node) : Node :=
  if n.label == .blockholder && n.totalRisk.isNone then
    { n with totalRisk := some 0 }
  else n

def bhInitStep (g : Graph) : Graph := g.mapNodes bhInitNode

/-- The per-row contributions `toFloat(o.percent) * toFloat(coalesce(c.total_risk, 0))`
of `_propagate_risk_step` for owner `pid`: one row per OWNS edge from `pid` to a
Company whose `total_risk IS NOT NULL`.  (A NULL percent makes the product NULL,
which Cypher `sum` skips — same sum as contributing 0.) -/
def ownsContributions (g : Graph) (pid : String) : List ℚ :=
  g.edges.filterMap (fun e =>
    if e.etype == .owns && e.src == pid then
      match g.findNode e.dst with
      | some c =>
          if c.label == .company && !c.totalRisk.isNone then
            some (e.percent.getD 0 * c.totalRisk.getD 0)
          else none
      | none => none
    else none)

/-- New total for node `p` in `_propagate_risk_step`, or `none` when `p` is not
matched (wrong label or no OWNS rows) or the change is within the ε = 1e-4
threshold (`WHERE abs(coalesce(p.total_risk,0) - new) > 0.0001`). -/
def propagateNewTotal (g : Graph) (p : Node) : Option ℚ :=
  if (p.label == .company || p.label == .blockholder)
      && !(ownsContributions g p.id).isEmpty then
    if (1 : ℚ)/10000 <
        |p.totalRisk.getD 0 - (p.directRisk.getD 0 + (ownsContributions g p.id).sum)| then
      some (p.directRisk.getD 0 + (ownsContributions g p.id).sum)
    else none
  else none

/-- The SET of `_propagate_risk_step` on one node. -/
def propagateApply (g : Graph) (p : Node) : Node :=
  match propagateNewTotal g p with
  | some t => { p with totalRisk := some t }
  | none => p

/-- One propagation round (`_propagate_risk_step`): Jacobi update — every new
total is computed from the pre-round graph `g` — together with the round's
update count. -/
def propagateStep (g : Graph) : Graph × Nat :=
  (g.mapNodes (propagateApply g),
   (g.nodes.filter (fun p => (propagateNewTotal g p).isSome)).length)

/-- The `while updated and iteration < max_iterations` loop.  The returned
Bool records convergence: `true` when some round produced zero updates before
the budget ran out (the code's non-warning path), `false` when the budget was
exhausted while still updating. -/
def propagateLoop : Nat → Graph → Graph × Bool
  | 0, g => (g, false)
  | Nat.succ k, g =>
      if 0 < (propagateStep g).2 then propagateLoop k (propagateStep g).1
      else ((propagateStep g).1, true)

structure PropOutcome where
  graph : Graph
  converged : Bool
deriving DecidableEq, Repr

/-- Embeds `RiskEngine.compute_total_risk(max_iterations=15)`. -/
def computeTotalRisk (maxIterations : Nat) (g : Graph) : PropOutcome :=
  { graph := (propagateLoop maxIterations (bhInitStep (seedStep (resetStep g)))).1,
    converged := (propagateLoop maxIterations (bhInitStep (seedStep (resetStep g)))).2 }

/-! ### dollarize_risk (risk_engine.py lines 105-131) -/

/-- Statement 1: every Company gets
`dollarized_risk = coalesce(total_risk, 0) * coalesce(market_cap, 0)`. -/
def dollarizeCompanies (g : Graph) : Graph :=
  g.mapNodes (fun n =>
    if n.label == .company then
      { n with dollarizedRisk := some (n.totalRisk.getD 0 * n.marketCap.getD 0) }
    else n)

/-- Rows `coalesce(o.percent, 0) * coalesce(c.dollarized_risk, 0)` of the
Blockholder statement, for blockholder `bid`. -/
def bhOwnedDollar (g : Graph) (bid : String) : List ℚ :=
  g.edges.filterMap (fun e =>
    if e.etype == .owns && e.src == bid then
      match g.findNode e.dst with
      | some c =>
          if c.label == .company then
            some (e.percent.getD 0 * c.dollarizedRisk.getD 0)
          else none
      | none => none
    else none)

/-- Statement 2: Blockholders with at least one OWNS edge to a Company get the
sum of their rows. -/
def dollarizeBlockholders (g : Graph) : Graph :=
  g.mapNodes (fun n =>
    if n.label == .blockholder && !(bhOwnedDollar g n.id).isEmpty then
      { n with dollarizedRisk := some (bhOwnedDollar g n.id).sum }
    else n)

/-- Rows `coalesce(c.dollarized_risk, 0) * coalesce(e.weight, 0)` of the
RiskFactor statement, for risk factor node `rid`. -/
def rfExposureDollar (g : Graph) (rid : String) : List ℚ :=
  g.edges.filterMap (fun e =>
    if e.etype == .exposedTo && e.dst == rid then
      match g.findNode e.src with
      | some c =>
          if c.label == .company then
            some (c.dollarizedRisk.getD 0 * e.weight.getD 0)
          else none
      | none => none
    else none)

/-- Statement 3: RiskFactors with at least one incoming EXPOSED_TO edge from a
Company get the sum of their rows. -/
def dollarizeRiskFactors (g : Graph) : Graph :=
  g.mapNodes (fun n =>
    if n.label == .riskFactor && !(rfExposureDollar g n.id).isEmpty then
      { n with dollarizedRisk := some (rfExposureDollar g n.id).sum }
    else n)

/-- Embeds `RiskEngine.dollarize_risk`: Company, then Blockholder, then RiskFactor. -/
def dollarizeRisk (g : Graph) : Graph :=
  dollarizeRiskFactors (dollarizeBlockholders (dollarizeCompanies g))

/-! ### simulate_acquisition (risk_engine.py lines 273-310)

The Python method runs its Cypher statements one by one on an auto-commit
session: an existence check, then the ownership deletion, then the MERGE of
the new OWNS edge, then the role update.  `datetime.datetime.now().year` is
passed in as the explicit parameter `yr`. -/

/-- Deletion statement `MATCH (p)-[o:OWNS]->(c:Company {id: tgt}) DELETE o`:
every OWNS edge into the target company, from an owner of any label. -/
def deleteIncomingOwns (g : Graph) (tgt : String) : Graph :=
  { g with edges := g.edges.filter (fun e =>
      !(e.etype == .owns && e.dst == tgt && g.hasNode .company tgt)) }

/-- The MERGE statement: re-matches both companies, then merges a single OWNS
edge `acquirer→target` and sets `percent` and `year` on it. -/
def mergeOwns (g : Graph) (acq tgt : String) (pct : ℚ) (yr : Int) : Graph :=
  if g.hasNode .company acq && g.hasNode .company tgt then
    if g.edges.any (fun e => e.etype == .owns && e.src == acq && e.dst == tgt) then
      { g with edges := g.edges.map (fun e =>
          if e.etype == .owns && e.src == acq && e.dst == tgt then
            { e with percent := some pct, year := some yr }
          else e) }
    else
      { g with edges := g.edges ++
          [{ src := acq, dst := tgt, etype := .owns, percent := some pct,
             weight := none, year := some yr }] }
  else g

/-- The role update statement `MATCH (c:Company {id: i}) SET c.role = r`. -/
def setRole (g : Graph) (i : String) (r : String) : Graph :=
  g.mapNodes (fun n =>
    if n.label == .company && n.id == i then { n with role := some r } else n)

/-- Embeds `RiskEngine.simulate_acquisition`: returns False when the existence check
finds no (acquirer, acquired) pair; otherwise deletes all incoming OWNS edges
of the target, merges the new edge, marks the target `acquired`, returns True. -/
def simulateAcquisition (g : Graph) (acq tgt : String) (pct : ℚ) (yr : Int) :
    Graph × Bool :=
  if g.hasNode .company acq && g.hasNode .company tgt then
    (setRole (mergeOwns (deleteIncomingOwns g tgt) acq tgt pct yr) tgt "acquired", true)
  else (g, false)

/-- Models an exception interrupting `simulate_acquisition` after `k` of its
three mutating Cypher statements have run.  Each `session.run` auto-commits
separately, so the statements already executed stay applied; the `except`
handler then returns False.  `k ≥ 3` means no exception: the full success
path runs. -/
def simulateAcquisitionFailAfter (g : Graph) (acq tgt : String) (pct : ℚ)
    (yr : Int) (k : Nat) : Graph × Bool :=
  if g.hasNode .company acq && g.hasNode .company tgt then
    if k == 0 then (g, false)
    else if k == 1 then (deleteIncomingOwns g tgt, false)
    else if k == 2 then (mergeOwns (deleteIncomingOwns g tgt) acq tgt pct yr, false)
    else simulateAcquisition g acq tgt pct yr
  else (g, false)

/-! ### simulate_divestiture (risk_engine.py lines 312-341) -/

/-- The deletion pattern
`MATCH (d:Company {id: own})-[o:OWNS]->(t:Company {id: tgt}) DELETE o`:
note both endpoints must carry the Company label. -/
def divestMatch (g : Graph) (own tgt : String) (e : Edge) : Bool :=
  e.etype == .owns && e.src == own && e.dst == tgt
    && g.hasNode .company own && g.hasNode .company tgt

/-- Rows of the post-deletion ownership check
`MATCH (p:Company)-[:OWNS]->(c:Company {id: tgt}) RETURN count(p)`:
one row per OWNS edge into the target whose owner carries the Company label. -/
def companyOwnerEdges (g : Graph) (tgt : String) : List Edge :=
  g.edges.filter (fun e =>
    e.etype == .owns && e.dst == tgt
      && g.hasNode .company e.src && g.hasNode .company tgt)

/-- Embeds `RiskEngine.simulate_divestiture`: deletes the OWNS edge owner→target (both
matched with the Company label); when at least one relationship was deleted,
resets the target's role to `company` if the count of remaining Company owners
is zero and returns True; otherwise returns False. -/
def simulateDivestiture (g : Graph) (own tgt : String) : Graph × Bool :=
  let g1 : Graph := { g with edges := g.edges.filter (fun e => !(divestMatch g own tgt e)) }
  if 0 < (g.edges.filter (divestMatch g own tgt)).length then
    if (companyOwnerEdges g1 tgt).length == 0 then (setRole g1 tgt "company", true)
    else (g1, true)
  else (g1, false)

/-! ### simulate_risk_event (risk_engine.py lines 343-386) -/

/-- The match clause
`MATCH (c:Company)-[e:EXPOSED_TO]->(r:RiskFactor {name: rfName})` with the
AND-combined optional WHERE filters on the company's id, sector and location
(a filter passed as `none` adds no clause). -/
def riskEventMatch (g : Graph) (rfName : String) (tc ts tl : Option String)
    (e : Edge) : Bool :=
  e.etype == .exposedTo
    && (match g.findNode e.src with
        | some c =>
            c.label == .company
              && (match tc with | some v => c.id == v | none => true)
              && (match ts with | some v => c.sector == some v | none => true)
              && (match tl with | some v => c.location == some v | none => true)
        | none => false)
    && (match g.findNode e.dst with
        | some r => r.label == .riskFactor && r.name == rfName
        | none => false)

/-- The CASE expression of the update:
`CASE WHEN w*m > 1.0 THEN 1.0 WHEN w*m < 0.0 THEN 0.0 ELSE w*m END`. -/
def riskEventNewWeight (w m : ℚ) : ℚ :=
  if 1 < w * m then 1 else if w * m < 0 then 0 else w * m

/-- Embeds `RiskEngine.simulate_risk_event`: rewrites the weight of every matched
EXPOSED_TO edge through the CASE expression (a NULL weight stays NULL: every
CASE branch is NULL on it) and returns the count of matched edges. -/
def simulateRiskEvent (g : Graph) (rfName : String) (m : ℚ)
    (tc ts tl : Option String) : Graph × Nat :=
  ({ g with edges := g.edges.map (fun e =>
      if riskEventMatch g rfName tc ts tl e then
        match e.weight with
        | some w => { e with weight := some (riskEventNewWeight w m) }
        | none => e
      else e) },
   (g.edges.filter (riskEventMatch g rfName tc ts tl)).length)

/-! ### generate_diff (risk_engine.py lines 234-271)

`generate_diff` parses the two snapshot JSON files into Python dicts keyed by
company id and emits one diff row per company of the `after` dict whose
dollarized-risk delta clears the 0.01 noise floor.  We embed the parsed
snapshots as lists of records and the dict comprehension
`{c["id"]: c for c in json.load(f)}` as `dictOf` (first-insertion order,
last duplicate wins, exactly as in Python). -/

/-- One parsed company record of a snapshot file.  Fields the code reads with
`.get(key, default)` are `Option`s. -/
structure SnapRecord where
  id : String
  name : Option String
  dollarizedRisk : Option ℚ
  sector : Option String
  location : Option String
deriving DecidableEq, Repr

/-- One step of the dict comprehension: a repeated key overwrites the stored
record in place, a fresh key is appended. -/
def dictInsert (acc : List SnapRecord) (c : SnapRecord) : List SnapRecord :=
  if acc.any (fun r => r.id == c.id) then
    acc.map (fun r => if r.id == c.id then c else r)
  else acc ++ [c]

def dictOf (l : List SnapRecord) : List SnapRecord := l.foldl dictInsert []

/-- Embeds `record.get("dollarized_risk", 0) or 0`: a missing key or a JSON null
counts as 0. -/
def snapDollar (r : SnapRecord) : ℚ := r.dollarizedRisk.getD 0

/-- Embeds `before.get(cid, {})` followed by the dollarized-risk read: an id absent
from the before snapshot counts as all-zero. -/
def beforeDollar (before : List SnapRecord) (cid : String) : ℚ :=
  match (dictOf before).find? (fun r => r.id == cid) with
  | some r => snapDollar r
  | none => 0

/-- Python's `round(x, 2)` (round half to even at two decimal places). -/
def round2 (q : ℚ) : ℚ :=
  let s := q * 100
  let f : ℤ := ⌊s⌋
  let r : ℤ :=
    if s - f < 1/2 then f
    else if 1/2 < s - f then f + 1
    else if f % 2 = 0 then f else f + 1
  (r : ℚ) / 100

structure DiffRow where
  id : String
  name : String
  riskBefore : ℚ
  riskAfter : ℚ
  delta : ℚ
  sector : String
  location : String
deriving DecidableEq, Repr

/-- Embeds `RiskEngine.generate_diff` on two parsed snapshots: one row per
company of the after dict with `|delta| > 0.01`. -/
def generateDiff (before after : List SnapRecord) : List DiffRow :=
  (dictOf after).filterMap (fun a =>
    if (1 : ℚ)/100 < |snapDollar a - beforeDollar before a.id| then
      some { id := a.id, name := a.name.getD "N/A",
             riskBefore := round2 (beforeDollar before a.id),
             riskAfter := round2 (snapDollar a),
             delta := round2 (snapDollar a - beforeDollar before a.id),
             sector := a.sector.getD "N/A",
             location := a.location.getD "N/A" }
    else none)



/-! ### Concrete store states used by the claim theorems -/

/-- The spec's §8 concrete scenario: Company C1 (market_cap 100) exposed to
RiskFactor "Flood" with weight 0.3; Blockholder B1 owns C1 at percent 0.5. -/
def g_C1 : Graph :=
  { nodes := [ { mkNode "C1" "C1" .company with marketCap := some 100 },
               mkNode "B1" "B1" .blockholder,
               mkNode "Flood" "Flood" .riskFactor ],
    edges := [ mkExposed "C1" "Flood" (3/10), mkOwns "B1" "C1" (1/2) ] }

/-- A two-company ownership cycle A↔B, each direction with percent `p`, no
EXPOSED_TO edges, and the given stored `direct_risk` values. -/
def twoCycle (p : ℚ) (dA dB : Option ℚ) : Graph :=
  { nodes := [ { mkNode "A" "A" .company with directRisk := dA },
               { mkNode "B" "B" .company with directRisk := dB } ],
    edges := [ mkOwns "A" "B" p, mkOwns "B" "A" p ] }

/-- A Company carrying a stored negative direct_risk and stale total/indirect
risk values. -/
def nC3 : Node :=
  { mkNode "A" "A" .company with
      directRisk := some (-2)
      totalRisk := some 7
      indirectRisk := some 1 }

def g_C3cx : Graph := { nodes := [nC3], edges := [] }

/-- A Company with a stored direct_risk of 5 and no EXPOSED_TO edges. -/
def g_C4cx : Graph :=
  { nodes := [ { mkNode "X" "X" .company with directRisk := some 5 } ], edges := [] }

/-- A Company with a stored direct_risk of 9 and one EXPOSED_TO edge of
weight 0.4. -/
def nC4 : Node := { mkNode "C" "C" .company with directRisk := some 9 }

def g_C4w : Graph :=
  { nodes := [nC4, mkNode "F" "F" .riskFactor],
    edges := [mkExposed "C" "F" (2/5)] }

/-- Companies A (acquirer) and T (target), target currently owned by
Blockholder B at percent 0.25. -/
def g_acq : Graph :=
  { nodes := [ mkNode "A" "A" .company,
               { mkNode "T" "T" .company with role := some "company" },
               mkNode "B" "B" .blockholder ],
    edges := [ mkOwns "B" "T" (1/4) ] }

/-- Target T with role `acquired`, owned by Company X (percent 0.5) and by
Blockholder B (percent 0.25). -/
def g_div : Graph :=
  { nodes := [ mkNode "X" "X" .company,
               { mkNode "T" "T" .company with role := some "acquired" },
               mkNode "B" "B" .blockholder ],
    edges := [ mkOwns "X" "T" (1/2), mkOwns "B" "T" (1/4) ] }

/-- Target T with role `acquired` and Company X as its sole owner. -/
def g_div2 : Graph :=
  { nodes := [ mkNode "X" "X" .company,
               { mkNode "T" "T" .company with role := some "acquired" } ],
    edges := [ mkOwns "X" "T" (1/2) ] }

def nB : Node := mkNode "B" "B" .blockholder

/-- Target T with role `acquired`, owned only by Blockholder B. -/
def g_bh : Graph :=
  { nodes := [ nB, { mkNode "T" "T" .company with role := some "acquired" } ],
    edges := [ mkOwns "B" "T" (1/4) ] }

def eRE : Edge := mkExposed "C" "Flood" (1/2)

/-- One Company exposed to RiskFactor "Flood" with weight 0.5. -/
def g_re : Graph :=
  { nodes := [ { mkNode "C" "C" .company with
                   sector := some "Energy"
                   location := some "TX" },
               mkNode "Flood" "Flood" .riskFactor ],
    edges := [eRE] }

def snapBefore : List SnapRecord :=
  [ { id := "C", name := some "CorpC", dollarizedRisk := some 1,
      sector := some "Energy", location := some "TX" } ]

/-- The after snapshot moves C's dollarized risk by exactly 0.011. -/
def snapAfter : List SnapRecord :=
  [ { id := "C", name := some "CorpC", dollarizedRisk := some (1 + 11/1000),
      sector := some "Energy", location := some "TX" } ]

/-! ### Helper lemmas -/

theorem findNode_mapNodes (g : Graph) (f : Node → Node)
    (hf : ∀ n, (f n).id = n.id) (i : String) :
    (g.mapNodes f).findNode i = (g.findNode i).map f := by
  unfold Graph.findNode Graph.mapNodes
  rw [List.find?_map]
  have : ((fun n : Node => n.id == i) ∘ f) = (fun n : Node => n.id == i) := by
    funext n
    simp [hf n]
  rw [this]

theorem hasNode_mapNodes (g : Graph) (f : Node → Node)
    (hf : ∀ n, (f n).id = n.id) (hl : ∀ n, (f n).label = n.label)
    (l : NodeLabel) (i : String) :
    (g.mapNodes f).hasNode l i = g.hasNode l i := by
  unfold Graph.hasNode Graph.mapNodes
  rw [List.any_map]
  congr 1
  funext n
  simp [hf n, hl n]

theorem nodeHasLabel_mapNodes (g : Graph) (f : Node → Node)
    (hf : ∀ n, (f n).id = n.id) (hl : ∀ n, (f n).label = n.label)
    (i : String) (l : NodeLabel) :
    (g.mapNodes f).nodeHasLabel i l = g.nodeHasLabel i l := by
  unfold Graph.nodeHasLabel
  rw [findNode_mapNodes g f hf]
  cases g.findNode i with
  | none => rfl
  | some n => simp [hl n]

theorem resetNode_id (n : Node) : (resetNode n).id = n.id := by
  unfold resetNode; split <;> rfl

theorem resetNode_label (n : Node) : (resetNode n).label = n.label := by
  unfold resetNode; split <;> rfl

/-- Claim C3, amended: after the reset statement every Company/Blockholder has
`total_risk = 0`, `direct_risk = coalesce(direct_risk, 0)` — a stored negative
value is kept, only a missing one becomes 0 — and `indirect_risk` removed. -/
theorem C3_reset_amended (g : Graph) (i : String) (n : Node)
    (hfind : g.findNode i = some n)
    (hlab : n.label = .company ∨ n.label = .blockholder) :
    (resetStep g).totalRiskOf i = some 0 ∧
    (resetStep g).directRiskOf i = some (n.directRisk.getD 0) ∧
    (resetStep g).indirectRiskOf i = none := by
  have hmap := findNode_mapNodes g resetNode resetNode_id i
  unfold resetStep at *
  unfold Graph.totalRiskOf Graph.directRiskOf Graph.indirectRiskOf
  rw [hmap, hfind]
  have hcond : (n.label == NodeLabel.company || n.label == NodeLabel.blockholder) = true := by
    rcases hlab with h | h <;> simp [h]
  simp [resetNode, hcond]

/-! ### Fixed-point lemmas for the propagation loop -/

theorem ownsContributions_zero (g : Graph)
    (h : ∀ n ∈ g.nodes, n.totalRisk = some 0) (pid : String) :
    ∀ x ∈ ownsContributions g pid, x = 0 := by
  intro x hx
  unfold ownsContributions at hx
  rw [List.mem_filterMap] at hx
  obtain ⟨e, he, hfe⟩ := hx
  split at hfe
  · split at hfe
    · rename_i c hfind
      split at hfe
      · injection hfe with hx'
        have hc : c ∈ g.nodes := List.mem_of_find?_eq_some hfind
        rw [← hx', h c hc]
        simp
      · cases hfe
    · cases hfe
  · cases hfe

theorem propagateNewTotal_none (g : Graph)
    (h : ∀ n ∈ g.nodes, n.totalRisk = some 0 ∧ n.directRisk.getD 0 = 0)
    (p : Node) (hp : p ∈ g.nodes) :
    propagateNewTotal g p = none := by
  unfold propagateNewTotal
  by_cases h1 : ((p.label == NodeLabel.company || p.label == NodeLabel.blockholder)
      && !(ownsContributions g p.id).isEmpty) = true
  · have hsum : (ownsContributions g p.id).sum = 0 :=
      List.sum_eq_zero (ownsContributions_zero g (fun n hn => (h n hn).1) p.id)
    have h2 : ¬ ((1:ℚ)/10000 <
        |p.totalRisk.getD 0 - (p.directRisk.getD 0 + (ownsContributions g p.id).sum)|) := by
      rw [hsum, (h p hp).2, (h p hp).1]
      norm_num
    rw [if_pos h1, if_neg h2]
  · rw [if_neg h1]

theorem propagateStep_fix (g : Graph)
    (h : ∀ n ∈ g.nodes, n.totalRisk = some 0 ∧ n.directRisk.getD 0 = 0) :
    propagateStep g = (g, 0) := by
  unfold propagateStep
  have h1 : g.mapNodes (propagateApply g) = g := by
    have hall : ∀ n ∈ g.nodes, propagateApply g n = id n := by
      intro n hn
      unfold propagateApply
      rw [propagateNewTotal_none g h n hn]
      rfl
    unfold Graph.mapNodes
    calc ({ g with nodes := g.nodes.map (propagateApply g) } : Graph)
        = { g with nodes := g.nodes.map id } := by rw [List.map_congr_left hall]
      _ = g := by rw [List.map_id]
  have h2 : (g.nodes.filter (fun p => (propagateNewTotal g p).isSome)) = [] :=
    List.filter_eq_nil_iff.mpr (fun n hn => by
      rw [propagateNewTotal_none g h n hn]; simp)
  rw [h1, h2]
  rfl

theorem propagateLoop_fix (k : Nat) (g : Graph)
    (h : ∀ n ∈ g.nodes, n.totalRisk = some 0 ∧ n.directRisk.getD 0 = 0) :
    propagateLoop (k + 1) g = (g, true) := by
  show (if 0 < (propagateStep g).2 then propagateLoop k (propagateStep g).1
      else ((propagateStep g).1, true)) = (g, true)
  rw [propagateStep_fix g h]
  simp

/-- Claim C2, amended: in a two-company ownership cycle A↔B with percent
p ∈ [0,1) in each direction, no EXPOSED_TO edges, and a stored direct_risk that
is absent or 0 (the code keeps a stored nonzero value through the reset, so
"no positive stored direct_risk" is not enough — see `C2_counterexample`),
`compute_total_risk` converges and leaves total_risk(A) = total_risk(B) = 0. -/
theorem C2_pure_cycle_amended (p : ℚ) (_hp0 : 0 ≤ p) (_hp1 : p < 1) (dA dB : Option ℚ)
    (hA : dA = none ∨ dA = some 0) (hB : dB = none ∨ dB = some 0) :
    (computeTotalRisk 15 (twoCycle p dA dB)).converged = true ∧
    (computeTotalRisk 15 (twoCycle p dA dB)).graph.totalRiskOf "A" = some 0 ∧
    (computeTotalRisk 15 (twoCycle p dA dB)).graph.totalRiskOf "B" = some 0 := by
  have hg3 : bhInitStep (seedStep (resetStep (twoCycle p dA dB))) =
      { nodes := [ { mkNode "A" "A" .company with directRisk := some 0, totalRisk := some 0 },
                   { mkNode "B" "B" .company with directRisk := some 0, totalRisk := some 0 } ],
        edges := [ mkOwns "A" "B" p, mkOwns "B" "A" p ] } := by
    rcases hA with rfl | rfl <;> rcases hB with rfl | rfl <;> rfl
  have hfix := propagateLoop_fix 14
      { nodes := [ { mkNode "A" "A" .company with directRisk := some 0, totalRisk := some 0 },
                   { mkNode "B" "B" .company with directRisk := some 0, totalRisk := some 0 } ],
        edges := [ mkOwns "A" "B" p, mkOwns "B" "A" p ] }
      (by
        intro n hn
        simp only [List.mem_cons, List.not_mem_nil, or_false] at hn
        rcases hn with rfl | rfl <;> exact ⟨rfl, rfl⟩)
  unfold computeTotalRisk
  rw [hg3]
  rw [show (14 + 1 : Nat) = 15 from rfl] at hfix
  rw [hfix]
  exact ⟨rfl, rfl, rfl⟩

/-! ### direct_risk through the pipeline (claim C4) -/

theorem propagateApply_id (g : Graph) (p : Node) : (propagateApply g p).id = p.id := by
  unfold propagateApply
  cases propagateNewTotal g p <;> rfl

theorem propagateApply_directRisk (g : Graph) (p : Node) :
    (propagateApply g p).directRisk = p.directRisk := by
  unfold propagateApply
  cases propagateNewTotal g p <;> rfl

theorem directRiskOf_propagateStep (g : Graph) (i : String) :
    (propagateStep g).1.directRiskOf i = g.directRiskOf i := by
  show (g.mapNodes (propagateApply g)).directRiskOf i = g.directRiskOf i
  unfold Graph.directRiskOf
  rw [findNode_mapNodes g (propagateApply g) (propagateApply_id g) i]
  cases g.findNode i with
  | none => rfl
  | some n => simp [propagateApply_directRisk g n]

theorem directRiskOf_propagateLoop (k : Nat) (g : Graph) (i : String) :
    (propagateLoop k g).1.directRiskOf i = g.directRiskOf i := by
  induction k generalizing g with
  | zero => rfl
  | succ k ih =>
      show (if 0 < (propagateStep g).2 then propagateLoop k (propagateStep g).1
          else ((propagateStep g).1, true)).1.directRiskOf i = g.directRiskOf i
      by_cases h : 0 < (propagateStep g).2
      · rw [if_pos h, ih, directRiskOf_propagateStep]
      · rw [if_neg h]
        exact directRiskOf_propagateStep g i

theorem bhInitNode_id (n : Node) : (bhInitNode n).id = n.id := by
  unfold bhInitNode; split <;> rfl

theorem bhInitNode_directRisk (n : Node) : (bhInitNode n).directRisk = n.directRisk := by
  unfold bhInitNode; split <;> rfl

theorem directRiskOf_bhInitStep (g : Graph) (i : String) :
    (bhInitStep g).directRiskOf i = g.directRiskOf i := by
  unfold bhInitStep Graph.directRiskOf
  rw [findNode_mapNodes g bhInitNode bhInitNode_id i]
  cases g.findNode i with
  | none => rfl
  | some n => simp [bhInitNode_directRisk n]

theorem seedNode_id (g : Graph) (n : Node) : (seedNode g n).id = n.id := by
  unfold seedNode; split <;> rfl

theorem seedNode_label (g : Graph) (n : Node) : (seedNode g n).label = n.label := by
  unfold seedNode; split <;> rfl

theorem exposureWeights_mapNodes (g : Graph) (f : Node → Node)
    (hf : ∀ n, (f n).id = n.id) (hl : ∀ n, (f n).label = n.label) (cid : String) :
    exposureWeights (g.mapNodes f) cid = exposureWeights g cid := by
  unfold exposureWeights
  have he : (g.mapNodes f).edges = g.edges := rfl
  rw [he]
  congr 1
  funext e
  rw [nodeHasLabel_mapNodes g f hf hl]

/-- Claim C4, amended: after `compute_total_risk`, a Company with at least one
EXPOSED_TO edge has `direct_risk = Σ weight` over those edges; a Company with
none keeps `coalesce(stored direct_risk, 0)`. -/
theorem C4_direct_risk_amended (mi : Nat) (g : Graph) (i : String) (n : Node)
    (hfind : g.findNode i = some n) (hlab : n.label = .company) :
    (computeTotalRisk mi g).graph.directRiskOf i =
      some (if (exposureWeights g i).isEmpty then n.directRisk.getD 0
            else (exposureWeights g i).sum) := by
  have hni : n.id = i := by
    have := List.find?_some hfind
    simpa using this
  show (propagateLoop mi (bhInitStep (seedStep (resetStep g)))).1.directRiskOf i = _
  rw [directRiskOf_propagateLoop, directRiskOf_bhInitStep]
  unfold seedStep Graph.directRiskOf
  rw [findNode_mapNodes (resetStep g) (seedNode (resetStep g)) (seedNode_id (resetStep g)) i]
  have hreset : (resetStep g).findNode i = some (resetNode n) := by
    unfold resetStep
    rw [findNode_mapNodes g resetNode resetNode_id i, hfind]
    rfl
  rw [hreset]
  have hexp : exposureWeights (resetStep g) (resetNode n).id = exposureWeights g i := by
    rw [resetNode_id n, hni]
    exact exposureWeights_mapNodes g resetNode resetNode_id resetNode_label i
  show (seedNode (resetStep g) (resetNode n)).directRisk =
      some (if (exposureWeights g i).isEmpty then n.directRisk.getD 0
            else (exposureWeights g i).sum)
  unfold seedNode
  rw [resetNode_label n, hexp, hlab]
  by_cases hemp : (exposureWeights g i).isEmpty
  · rw [if_neg (by simp [hemp])]
    rw [if_pos hemp]
    unfold resetNode
    rw [hlab]
    simp
  · rw [if_pos (by simp [hemp])]
    rw [if_neg hemp]

/-! ### simulate_acquisition (claim C5) -/

theorem findNode_of_hasNode (g : Graph) (hnd : g.NodupIds) (l : NodeLabel) (i : String)
    (h : g.hasNode l i = true) :
    ∃ n, g.findNode i = some n ∧ n.label = l ∧ n.id = i := by
  unfold Graph.hasNode at h
  rw [List.any_eq_true] at h
  obtain ⟨n, hn, hp⟩ := h
  rw [Bool.and_eq_true, beq_iff_eq, beq_iff_eq] at hp
  have hsome : (g.nodes.find? (fun m => m.id == i)).isSome := by
    rw [List.find?_isSome]
    exact ⟨n, hn, by simp [hp.2]⟩
  obtain ⟨m, hm⟩ := Option.isSome_iff_exists.mp hsome
  have hmmem : m ∈ g.nodes := List.mem_of_find?_eq_some hm
  have hmi : m.id = i := by
    have := List.find?_some hm
    simpa using this
  have hinj := List.inj_on_of_nodup_map hnd
  have : m = n := hinj hmmem hn (by rw [hmi, hp.2])
  exact ⟨m, hm, by rw [this]; exact hp.1, hmi⟩

theorem setRole_edges (g : Graph) (i r : String) : (setRole g i r).edges = g.edges := rfl

theorem deleteIncomingOwns_nodes (g : Graph) (tgt : String) :
    (deleteIncomingOwns g tgt).nodes = g.nodes := rfl

theorem mergeOwns_nodes (g : Graph) (acq tgt : String) (pct : ℚ) (yr : Int) :
    (mergeOwns g acq tgt pct yr).nodes = g.nodes := by
  unfold mergeOwns
  split
  · split <;> rfl
  · rfl

/-- Claim C5: `simulate_acquisition` returns False without modifying the graph
when either company is absent; on success it returns True, every previously
existing incoming OWNS edge of the target (from an owner of any label) is gone,
the incoming OWNS edges of the target are exactly the single merged
acquirer→target edge carrying the given percent and year, and the target's
role is `acquired`. -/
theorem C5_acquisition_replaces_owners (g : Graph) (acq tgt : String) (pct : ℚ) (yr : Int) (hnd : g.NodupIds) :
    (¬ (g.hasNode .company acq = true ∧ g.hasNode .company tgt = true) →
        simulateAcquisition g acq tgt pct yr = (g, false)) ∧
    (g.hasNode .company acq = true → g.hasNode .company tgt = true →
        (simulateAcquisition g acq tgt pct yr).2 = true ∧
        ((simulateAcquisition g acq tgt pct yr).1.edges.filter
            (fun e => e.etype == .owns && e.dst == tgt)) =
          [{ src := acq, dst := tgt, etype := .owns, percent := some pct,
             weight := none, year := some yr }] ∧
        (simulateAcquisition g acq tgt pct yr).1.roleOf tgt = some "acquired") := by
  constructor
  · intro hno
    unfold simulateAcquisition
    rw [if_neg]
    intro hcon
    rw [Bool.and_eq_true] at hcon
    exact hno hcon
  · intro h1 h2
    have hcond : (g.hasNode .company acq && g.hasNode .company tgt) = true := by
      rw [Bool.and_eq_true]; exact ⟨h1, h2⟩
    unfold simulateAcquisition
    rw [if_pos hcond]
    have hmergecond : ((deleteIncomingOwns g tgt).hasNode .company acq
        && (deleteIncomingOwns g tgt).hasNode .company tgt) = true := hcond
    have hnoowns : ((deleteIncomingOwns g tgt).edges.any
        (fun e => e.etype == .owns && e.src == acq && e.dst == tgt)) = false := by
      rw [Bool.eq_false_iff]
      intro hany
      rw [List.any_eq_true] at hany
      obtain ⟨e, he, hp⟩ := hany
      unfold deleteIncomingOwns at he
      simp only [List.mem_filter] at he
      rw [Bool.and_eq_true, Bool.and_eq_true] at hp
      have hdel : (e.etype == EdgeType.owns && e.dst == tgt && g.hasNode .company tgt) = true := by
        rw [Bool.and_eq_true, Bool.and_eq_true]
        exact ⟨⟨hp.1.1, hp.2⟩, h2⟩
      rw [hdel] at he
      simp at he
    have hedges : (mergeOwns (deleteIncomingOwns g tgt) acq tgt pct yr).edges =
        (deleteIncomingOwns g tgt).edges ++
          [{ src := acq, dst := tgt, etype := .owns, percent := some pct,
             weight := none, year := some yr }] := by
      unfold mergeOwns
      rw [if_pos hmergecond, hnoowns]
      simp
    refine ⟨rfl, ?_, ?_⟩
    · rw [setRole_edges, hedges, List.filter_append]
      have hleft : ((deleteIncomingOwns g tgt).edges.filter
          (fun e => e.etype == .owns && e.dst == tgt)) = [] := by
        unfold deleteIncomingOwns
        rw [List.filter_filter]
        rw [List.filter_eq_nil_iff]
        intro e he hp
        rw [Bool.and_eq_true, Bool.and_eq_true] at hp
        obtain ⟨⟨howns, hdst⟩, hneg⟩ := hp
        have : (e.etype == EdgeType.owns && e.dst == tgt && g.hasNode .company tgt) = true := by
          rw [Bool.and_eq_true, Bool.and_eq_true]
          exact ⟨⟨howns, hdst⟩, h2⟩
        rw [this] at hneg
        cases hneg
      rw [hleft]
      simp
    · obtain ⟨n, hfind, hlabel, hid⟩ := findNode_of_hasNode g hnd .company tgt h2
      unfold setRole Graph.roleOf
      rw [findNode_mapNodes _ _ (fun n => by split <;> rfl) tgt]
      have hfind2 : (mergeOwns (deleteIncomingOwns g tgt) acq tgt pct yr).findNode tgt
          = some n := by
        unfold Graph.findNode
        rw [mergeOwns_nodes, deleteIncomingOwns_nodes]
        exact hfind
      rw [hfind2]
      simp [hlabel, hid]

/-! ### simulate_divestiture (claims C7, C8) -/

theorem companyOwnerEdges_setRole (g : Graph) (i r tgt : String) :
    companyOwnerEdges (setRole g i r) tgt = companyOwnerEdges g tgt := by
  unfold companyOwnerEdges
  have he : (setRole g i r).edges = g.edges := rfl
  rw [he]
  congr 1
  funext e
  unfold setRole
  rw [hasNode_mapNodes g _ (fun n => by split <;> rfl)
        (fun n => by split <;> rfl),
      hasNode_mapNodes g _ (fun n => by split <;> rfl)
        (fun n => by split <;> rfl)]

/-- Claim C7, amended: after a successful `simulate_divestiture` the target's
role is reset to `company` iff the target has zero remaining incoming OWNS
edges whose owner carries the Company label — Blockholder owners are not
counted by the code's ownership check (`MATCH (p:Company)-[:OWNS]->...`), so a
target still owned by a Blockholder also has its role reset (see
`C7_counterexample`); with a remaining Company owner the role is untouched. -/
theorem C7_divest_role_amended (g : Graph) (own tgt : String) (hnd : g.NodupIds)
    (hsucc : (simulateDivestiture g own tgt).2 = true) :
    ((companyOwnerEdges (simulateDivestiture g own tgt).1 tgt).length = 0 →
        (simulateDivestiture g own tgt).1.roleOf tgt = some "company") ∧
    ((companyOwnerEdges (simulateDivestiture g own tgt).1 tgt).length ≠ 0 →
        (simulateDivestiture g own tgt).1.roleOf tgt = g.roleOf tgt) := by
  by_cases hpos : 0 < (g.edges.filter (divestMatch g own tgt)).length
  case neg =>
    exfalso
    unfold simulateDivestiture at hsucc
    rw [if_neg hpos] at hsucc
    cases hsucc
  case pos =>
  -- some edge matched, so the target is a Company node of g
  have htgt : g.hasNode .company tgt = true := by
    rcases List.exists_mem_of_length_pos hpos with ⟨e, he⟩
    rw [List.mem_filter] at he
    have := he.2
    unfold divestMatch at this
    simp only [Bool.and_eq_true] at this
    exact this.2
  have hroleg1 : (({ g with edges := g.edges.filter (fun e => !(divestMatch g own tgt e)) } : Graph)).roleOf tgt = g.roleOf tgt := rfl
  by_cases hcnt : ((companyOwnerEdges { g with edges := g.edges.filter (fun e => !(divestMatch g own tgt e)) } tgt).length == 0) = true
  · have hres : simulateDivestiture g own tgt =
        (setRole { g with edges := g.edges.filter (fun e => !(divestMatch g own tgt e)) } tgt "company", true) := by
      unfold simulateDivestiture
      rw [if_pos hpos, if_pos hcnt]
    rw [hres]
    obtain ⟨n, hfind, hlabel, hid⟩ := findNode_of_hasNode g hnd .company tgt htgt
    have hrole : (setRole { g with edges := g.edges.filter (fun e => !(divestMatch g own tgt e)) } tgt "company").roleOf tgt = some "company" := by
      unfold setRole Graph.roleOf
      rw [findNode_mapNodes _ _ (fun n => by split <;> rfl) tgt]
      have hfind2 : (({ g with edges := g.edges.filter (fun e => !(divestMatch g own tgt e)) } : Graph)).findNode tgt = some n := hfind
      rw [hfind2]
      simp [hlabel, hid]
    constructor
    · intro _
      exact hrole
    · intro hne
      exfalso
      apply hne
      rw [companyOwnerEdges_setRole]
      rwa [beq_iff_eq] at hcnt
  · have hres : simulateDivestiture g own tgt =
        ({ g with edges := g.edges.filter (fun e => !(divestMatch g own tgt e)) }, true) := by
      unfold simulateDivestiture
      rw [if_pos hpos, if_neg hcnt]
    rw [hres]
    constructor
    · intro hzero
      exfalso
      rw [beq_iff_eq] at hcnt
      exact hcnt hzero
    · intro _
      exact hroleg1

/-- Claim C8: when the owner id names a Blockholder node, the divestiture
pattern `MATCH (d:Company {id: ...})-[o:OWNS]->...` matches nothing, no edge is
deleted, the graph is returned unchanged and the operator reports False: a
Blockholder's holding can never be removed through `simulate_divestiture`. -/
theorem C8_blockholder_divest_noop (g : Graph) (own tgt : String) (b : Node)
    (hfind : g.findNode own = some b) (hb : b.label = .blockholder)
    (hnd : g.NodupIds) :
    simulateDivestiture g own tgt = (g, false) := by
  have hbid : b.id = own := by
    have := List.find?_some hfind
    simpa using this
  have hown : g.hasNode .company own = false := by
    rw [Bool.eq_false_iff]
    intro hany
    unfold Graph.hasNode at hany
    rw [List.any_eq_true] at hany
    obtain ⟨m, hm, hp⟩ := hany
    rw [Bool.and_eq_true, beq_iff_eq, beq_iff_eq] at hp
    have hbm : b ∈ g.nodes := List.mem_of_find?_eq_some hfind
    have : m = b := List.inj_on_of_nodup_map hnd hm hbm (by rw [hp.2, hbid])
    rw [this, hb] at hp
    cases hp.1
  have hfalse : ∀ e, divestMatch g own tgt e = false := by
    intro e
    unfold divestMatch
    rw [hown]
    simp
  have hdel : (g.edges.filter (divestMatch g own tgt)) = [] :=
    List.filter_eq_nil_iff.mpr (fun e _ => by rw [hfalse e]; simp)
  have hkeep : (g.edges.filter (fun e => !(divestMatch g own tgt e))) = g.edges :=
    List.filter_eq_self.mpr (fun e _ => by rw [hfalse e]; rfl)
  unfold simulateDivestiture
  rw [hdel, hkeep]
  rfl

/-! ### Failure atomicity (claim C6) -/

/-- Claim C6, amended: the scenario operators are not all-or-nothing — each
Cypher statement commits separately.  When an exception interrupts
`simulate_acquisition` after `k < 3` of its mutating statements, it reports
False but the graph retains exactly the statements already executed: unchanged
only for `k = 0`, the ownership deletion for `k = 1`, deletion plus merge for
`k = 2` (see `C6_counterexample` for the deletion surviving a reported
failure). -/
theorem C6_failure_prefix_amended (g : Graph) (acq tgt : String) (pct : ℚ) (yr : Int)
    (k : Nat) (hk : k < 3) :
    (simulateAcquisitionFailAfter g acq tgt pct yr k).2 = false ∧
    (k = 0 → (simulateAcquisitionFailAfter g acq tgt pct yr k).1 = g) ∧
    ((simulateAcquisitionFailAfter g acq tgt pct yr k).1 = g ∨
     (simulateAcquisitionFailAfter g acq tgt pct yr k).1 = deleteIncomingOwns g tgt ∨
     (simulateAcquisitionFailAfter g acq tgt pct yr k).1 =
       mergeOwns (deleteIncomingOwns g tgt) acq tgt pct yr) := by
  unfold simulateAcquisitionFailAfter
  by_cases hc : (g.hasNode .company acq && g.hasNode .company tgt) = true
  · rw [if_pos hc]
    interval_cases k
    · simp
    · simp
    · simp
  · rw [if_neg hc]
    simp

/-! ### simulate_risk_event (claim C9) -/

/-- Claim C9: `simulate_risk_event` rewrites each matched EXPOSED_TO edge's
weight to `old_weight * multiplier` clamped to [0,1] (the CASE expression
equals `min 1 (max 0 (w*m))`); weight 0.5 under multiplier 1.2 becomes 0.6,
and multiplier 0 yields 0 for any weight. -/
theorem C9_risk_event_clamp (g : Graph) (rfName : String) (m : ℚ) (tc ts tl : Option String)
    (e : Edge) (w : ℚ)
    (he : e ∈ g.edges) (hmatch : riskEventMatch g rfName tc ts tl e = true)
    (hw : e.weight = some w) :
    { e with weight := some (min 1 (max 0 (w * m))) } ∈
      (simulateRiskEvent g rfName m tc ts tl).1.edges ∧
    riskEventNewWeight w m = min 1 (max 0 (w * m)) ∧
    riskEventNewWeight (1/2) (6/5) = 3/5 ∧
    riskEventNewWeight w 0 = 0 := by
  have hclamp : ∀ w' m' : ℚ, riskEventNewWeight w' m' = min 1 (max 0 (w' * m')) := by
    intro w' m'
    unfold riskEventNewWeight
    by_cases h1 : 1 < w' * m'
    · rw [if_pos h1]
      rw [max_eq_right (by linarith), min_eq_left (by linarith)]
    · rw [if_neg h1]
      by_cases h2 : w' * m' < 0
      · rw [if_pos h2]
        rw [max_eq_left (by linarith), min_eq_right (by norm_num)]
      · rw [if_neg h2]
        rw [max_eq_right (by linarith), min_eq_right (by linarith)]
  refine ⟨?_, hclamp w m, ?_, ?_⟩
  · have hmem := List.mem_map_of_mem (fun e =>
        if riskEventMatch g rfName tc ts tl e then
          match e.weight with
          | some w => { e with weight := some (riskEventNewWeight w m) }
          | none => e
        else e) he
    beta_reduce at hmem
    rw [if_pos hmatch, hw] at hmem
    rw [← hclamp w m]
    exact hmem
  · norm_num [riskEventNewWeight]
  · unfold riskEventNewWeight
    rw [mul_zero]
    norm_num

/-! ### generate_diff (claim C10) -/

theorem foldl_dictInsert_nodup : ∀ (l acc : List SnapRecord),
    (((acc ++ l).map (fun r => r.id)).Nodup) → l.foldl dictInsert acc = acc ++ l := by
  intro l
  induction l with
  | nil => intro acc _; simp
  | cons c l ih =>
      intro acc h
      rw [List.foldl_cons]
      have hnotin : (acc.any (fun r => r.id == c.id)) = false := by
        rw [Bool.eq_false_iff]
        intro hany
        rw [List.any_eq_true] at hany
        obtain ⟨r, hr, hrid⟩ := hany
        rw [beq_iff_eq] at hrid
        rw [List.map_append, List.nodup_append] at h
        have hcid : c.id ∈ (c :: l).map (fun r => r.id) := by simp
        have hrid2 : r.id ∈ acc.map (fun r => r.id) := List.mem_map_of_mem _ hr
        exact h.2.2 hrid2 (by rw [hrid]; exact hcid)
      have hstep : dictInsert acc c = acc ++ [c] := by
        unfold dictInsert
        rw [hnotin]
        simp
      rw [hstep, ih (acc ++ [c]) (by simpa using h)]
      simp

theorem dictOf_nodup (l : List SnapRecord) (h : (l.map (fun r => r.id)).Nodup) :
    dictOf l = l := by
  unfold dictOf
  have := foldl_dictInsert_nodup l [] (by simpa using h)
  simpa using this

theorem beforeDollar_nodup (before : List SnapRecord)
    (hb : (before.map (fun r => r.id)).Nodup) (x : String) :
    beforeDollar before x = (before.find? (fun r => r.id == x)).elim 0 snapDollar := by
  unfold beforeDollar
  rw [dictOf_nodup before hb]
  cases before.find? (fun r => r.id == x) <;> rfl

/-- Claim C10: `generate_diff` emits a row for company id `cid` iff `cid`
appears in the after snapshot and |dollarized_risk(after) −
dollarized_risk(before)| > 0.01, an absent before entry counting as zero; in
particular a delta of exactly 0.01 yields no row, 0.011 yields one, and ids
present only in the before snapshot are never reported. -/
theorem C10_diff_rows (before after : List SnapRecord)
    (hb : (before.map (fun r => r.id)).Nodup)
    (ha : (after.map (fun r => r.id)).Nodup) (cid : String) :
    (∃ row ∈ generateDiff before after, row.id = cid) ↔
    (∃ a ∈ after, a.id = cid ∧
        (1:ℚ)/100 <
          |snapDollar a - (before.find? (fun r => r.id == cid)).elim 0 snapDollar|) := by
  unfold generateDiff
  rw [dictOf_nodup after ha]
  constructor
  · rintro ⟨row, hrow, hrid⟩
    rw [List.mem_filterMap] at hrow
    obtain ⟨a, haft, hfa⟩ := hrow
    split at hfa
    · rename_i hgt
      injection hfa with h'
      have haid : a.id = cid := by rw [← hrid, ← h']
      refine ⟨a, haft, haid, ?_⟩
      rw [← haid, ← beforeDollar_nodup before hb]
      exact hgt
    · cases hfa
  · rintro ⟨a, haft, haid, hgt⟩
    have hgt' : (1:ℚ)/100 < |snapDollar a - beforeDollar before a.id| := by
      rw [haid, beforeDollar_nodup before hb]
      exact hgt
    refine ⟨{ id := a.id, name := a.name.getD "N/A",
              riskBefore := round2 (beforeDollar before a.id),
              riskAfter := round2 (snapDollar a),
              delta := round2 (snapDollar a - beforeDollar before a.id),
              sector := a.sector.getD "N/A", location := a.location.getD "N/A" },
            List.mem_filterMap.mpr ⟨a, haft, ?_⟩, haid⟩
    rw [if_pos hgt']

/-! ### Concrete evaluations: claim C1, counterexamples and witnesses.

The Batteries `Rat` arithmetic operations are `@[irreducible]`; they are made
semireducible inside this section so that `decide` can evaluate the engine on
the concrete store states above. -/

section
attribute [local semireducible] Rat.add Rat.mul Rat.inv Rat.sub

/-- Claim C1: on `g_C1` (Company C1 with market_cap 100 and a single EXPOSED_TO
edge of weight 0.3 to RiskFactor "Flood"; Blockholder B1 owns C1 at percent
0.5), `compute_total_risk` followed by `dollarize_risk` yields
direct_risk(C1) = 0.3, total_risk(C1) = 0.3, total_risk(B1) = 0.15,
dollarized_risk(C1) = 30 and dollarized_risk(B1) = 15. -/
theorem C1_concrete_pipeline :
    (dollarizeRisk (computeTotalRisk 15 g_C1).graph).directRiskOf "C1" = some ((3:ℚ)/10) ∧
    (dollarizeRisk (computeTotalRisk 15 g_C1).graph).totalRiskOf "C1" = some ((3:ℚ)/10) ∧
    (dollarizeRisk (computeTotalRisk 15 g_C1).graph).totalRiskOf "B1" = some ((3:ℚ)/20) ∧
    (dollarizeRisk (computeTotalRisk 15 g_C1).graph).dollarizedRiskOf "C1" = some (30:ℚ) ∧
    (dollarizeRisk (computeTotalRisk 15 g_C1).graph).dollarizedRiskOf "B1" = some (15:ℚ) := by
  decide

/-- Claim C2 counterexample: in `twoCycle (1/2) (some (-1)) none` the two
companies own each other with percent 1/2 ∈ [0,1), neither has an EXPOSED_TO
edge and neither has a positive stored direct_risk (A stores -1), yet
`compute_total_risk` converges to nonzero totals on both nodes: the reset
keeps the stored negative value (coalesce, not max) and the cycle propagates
it, refuting total_risk(A) = total_risk(B) = 0 as claimed. -/
theorem C2_counterexample :
    (computeTotalRisk 15 (twoCycle (1/2) (some (-1)) none)).converged = true ∧
    ¬ ((computeTotalRisk 15 (twoCycle (1/2) (some (-1)) none)).graph.totalRiskOf "A"
        = some (0:ℚ)) ∧
    ¬ ((computeTotalRisk 15 (twoCycle (1/2) (some (-1)) none)).graph.totalRiskOf "B"
        = some (0:ℚ)) := by
  decide

/-- Witness for `C2_pure_cycle_amended` at p = 1/2 with both stored
direct_risk values absent. -/
theorem C2_pure_cycle_amended_witness :
    ((0:ℚ) ≤ 1/2 ∧ (1:ℚ)/2 < 1 ∧
     ((none : Option ℚ) = none ∨ (none : Option ℚ) = some 0)) ∧
    ((computeTotalRisk 15 (twoCycle (1/2) none none)).converged = true ∧
     (computeTotalRisk 15 (twoCycle (1/2) none none)).graph.totalRiskOf "A" = some 0 ∧
     (computeTotalRisk 15 (twoCycle (1/2) none none)).graph.totalRiskOf "B" = some 0) :=
  ⟨⟨by norm_num, by norm_num, Or.inl rfl⟩,
   C2_pure_cycle_amended (1/2) (by norm_num) (by norm_num) none none
     (Or.inl rfl) (Or.inl rfl)⟩

/-- Claim C3 counterexample: the reset statement keeps the stored negative
direct_risk -2 of `nC3` (Cypher `coalesce(direct_risk, 0)`), it does not raise
it to `max(direct_risk, 0) = 0` as the claim states. -/
theorem C3_counterexample :
    (resetStep g_C3cx).directRiskOf "A" = some (-2 : ℚ) ∧
    ¬ ((resetStep g_C3cx).directRiskOf "A" = some (0:ℚ)) := by
  decide

/-- Witness for `C3_reset_amended` on the one-company store `g_C3cx`. -/
theorem C3_reset_amended_witness :
    (g_C3cx.findNode "A" = some nC3 ∧
     (nC3.label = .company ∨ nC3.label = .blockholder)) ∧
    ((resetStep g_C3cx).totalRiskOf "A" = some 0 ∧
     (resetStep g_C3cx).directRiskOf "A" = some (nC3.directRisk.getD 0) ∧
     (resetStep g_C3cx).indirectRiskOf "A" = none) :=
  ⟨⟨rfl, Or.inl rfl⟩, C3_reset_amended g_C3cx "A" nC3 rfl (Or.inl rfl)⟩

/-- Claim C4 counterexample: Company X of `g_C4cx` has no EXPOSED_TO edges but
a stored direct_risk of 5; after `compute_total_risk` its direct_risk is still
5, not the claimed sum over its (empty) exposure set: the seeding statement
only matches companies with at least one EXPOSED_TO edge. -/
theorem C4_counterexample :
    (computeTotalRisk 15 g_C4cx).graph.directRiskOf "X" = some (5:ℚ) ∧
    (exposureWeights g_C4cx "X").sum = 0 ∧
    ¬ ((computeTotalRisk 15 g_C4cx).graph.directRiskOf "X"
        = some ((exposureWeights g_C4cx "X").sum)) := by
  decide

/-- Witness for `C4_direct_risk_amended` on `g_C4w`, whose company C has one
EXPOSED_TO edge of weight 0.4. -/
theorem C4_direct_risk_amended_witness :
    (g_C4w.findNode "C" = some nC4 ∧ nC4.label = .company) ∧
    (computeTotalRisk 15 g_C4w).graph.directRiskOf "C" =
      some (if (exposureWeights g_C4w "C").isEmpty then nC4.directRisk.getD 0
            else (exposureWeights g_C4w "C").sum) :=
  ⟨⟨rfl, rfl⟩, C4_direct_risk_amended 15 g_C4w "C" nC4 rfl rfl⟩

/-- Witness for `C5_acquisition_replaces_owners` on `g_acq`: A acquires T at
percent 0.6 in year 2026, replacing Blockholder B's holding. -/
theorem C5_acquisition_replaces_owners_witness :
    g_acq.NodupIds ∧
    ((¬ (g_acq.hasNode .company "A" = true ∧ g_acq.hasNode .company "T" = true) →
        simulateAcquisition g_acq "A" "T" (3/5) 2026 = (g_acq, false)) ∧
     (g_acq.hasNode .company "A" = true → g_acq.hasNode .company "T" = true →
        (simulateAcquisition g_acq "A" "T" (3/5) 2026).2 = true ∧
        ((simulateAcquisition g_acq "A" "T" (3/5) 2026).1.edges.filter
            (fun e => e.etype == .owns && e.dst == "T")) =
          [{ src := "A", dst := "T", etype := .owns, percent := some (3/5),
             weight := none, year := some 2026 }] ∧
        (simulateAcquisition g_acq "A" "T" (3/5) 2026).1.roleOf "T" = some "acquired")) :=
  ⟨by decide, C5_acquisition_replaces_owners g_acq "A" "T" (3/5) 2026 (by decide)⟩

/-- Claim C6 counterexample: an exception after the ownership-deletion
statement of `simulate_acquisition` (failure point 1) makes the operator
report failure, yet the deletion of B's OWNS edge stays committed: the graph
is not left as it was before the call. -/
theorem C6_counterexample :
    (simulateAcquisitionFailAfter g_acq "A" "T" (3/5) 2026 1).2 = false ∧
    ¬ ((simulateAcquisitionFailAfter g_acq "A" "T" (3/5) 2026 1).1 = g_acq) := by
  decide

/-- Witness for `C6_failure_prefix_amended` at failure point k = 1. -/
theorem C6_failure_prefix_amended_witness :
    (1 : Nat) < 3 ∧
    ((simulateAcquisitionFailAfter g_acq "A" "T" (3/5) 2026 1).2 = false ∧
     ((1 : Nat) = 0 → (simulateAcquisitionFailAfter g_acq "A" "T" (3/5) 2026 1).1 = g_acq) ∧
     ((simulateAcquisitionFailAfter g_acq "A" "T" (3/5) 2026 1).1 = g_acq ∨
      (simulateAcquisitionFailAfter g_acq "A" "T" (3/5) 2026 1).1 =
        deleteIncomingOwns g_acq "T" ∨
      (simulateAcquisitionFailAfter g_acq "A" "T" (3/5) 2026 1).1 =
        mergeOwns (deleteIncomingOwns g_acq "T") "A" "T" (3/5) 2026)) :=
  ⟨by norm_num, C6_failure_prefix_amended g_acq "A" "T" (3/5) 2026 1 (by norm_num)⟩

/-- Claim C7 counterexample: in `g_div` the target T is owned by Company X and
Blockholder B; divesting X succeeds and resets T's role to `company` although
B's OWNS edge into T remains — the ownership check counts Company owners only,
refuting the claimed "zero remaining incoming OWNS edges of every kind". -/
theorem C7_counterexample :
    (simulateDivestiture g_div "X" "T").2 = true ∧
    (simulateDivestiture g_div "X" "T").1.roleOf "T" = some "company" ∧
    ¬ ((simulateDivestiture g_div "X" "T").1.edges.filter
        (fun e => e.etype == .owns && e.dst == "T") = []) := by
  decide

/-- Witness for `C7_divest_role_amended` on `g_div2` (T's sole owner X
divests). -/
theorem C7_divest_role_amended_witness :
    (g_div2.NodupIds ∧ (simulateDivestiture g_div2 "X" "T").2 = true) ∧
    (((companyOwnerEdges (simulateDivestiture g_div2 "X" "T").1 "T").length = 0 →
        (simulateDivestiture g_div2 "X" "T").1.roleOf "T" = some "company") ∧
     ((companyOwnerEdges (simulateDivestiture g_div2 "X" "T").1 "T").length ≠ 0 →
        (simulateDivestiture g_div2 "X" "T").1.roleOf "T" = g_div2.roleOf "T")) :=
  ⟨⟨by decide, by decide⟩, C7_divest_role_amended g_div2 "X" "T" (by decide) (by decide)⟩

/-- Witness for `C8_blockholder_divest_noop` on `g_bh` (B is a Blockholder
owning T). -/
theorem C8_blockholder_divest_noop_witness :
    (g_bh.findNode "B" = some nB ∧ nB.label = .blockholder ∧ g_bh.NodupIds) ∧
    simulateDivestiture g_bh "B" "T" = (g_bh, false) :=
  ⟨⟨rfl, rfl, by decide⟩, C8_blockholder_divest_noop g_bh "B" "T" nB rfl rfl (by decide)⟩

/-- Witness for `C9_risk_event_clamp` on `g_re`: multiplier 1.2 applied to the
weight-0.5 exposure of company C to "Flood". -/
theorem C9_risk_event_clamp_witness :
    (eRE ∈ g_re.edges ∧ riskEventMatch g_re "Flood" none none none eRE = true ∧
     eRE.weight = some ((1:ℚ)/2)) ∧
    ({ eRE with weight := some (min 1 (max 0 ((1:ℚ)/2 * (6/5)))) } ∈
       (simulateRiskEvent g_re "Flood" (6/5) none none none).1.edges ∧
     riskEventNewWeight ((1:ℚ)/2) (6/5) = min 1 (max 0 ((1:ℚ)/2 * (6/5))) ∧
     riskEventNewWeight (1/2) (6/5) = 3/5 ∧
     riskEventNewWeight ((1:ℚ)/2) 0 = 0) :=
  ⟨⟨by decide, by decide, rfl⟩,
   C9_risk_event_clamp g_re "Flood" (6/5) none none none eRE (1/2)
     (by decide) (by decide) rfl⟩

/-- Witness for `C10_diff_rows` on one-company snapshots whose dollarized risk
moves by exactly 0.011. -/
theorem C10_diff_rows_witness :
    ((snapBefore.map (fun r => r.id)).Nodup ∧
     (snapAfter.map (fun r => r.id)).Nodup) ∧
    ((∃ row ∈ generateDiff snapBefore snapAfter, row.id = "C") ↔
     (∃ a ∈ snapAfter, a.id = "C" ∧
        (1:ℚ)/100 <
          |snapDollar a - (snapBefore.find? (fun r => r.id == "C")).elim 0 snapDollar|)) :=
  ⟨⟨by decide, by decide⟩, C10_diff_rows snapBefore snapAfter (by decide) (by decide) "C"⟩

end

end RiskDash
